import Mathlib

/-!
Shallow embedding of the flag-quiz engine (`src/lib/quiz-engine.js`).

The JavaScript engine consists of an in-place Fisher–Yates `shuffle`, a
`Question` class, a static `QuestionGenerator.generate`, and a `QuizGame`
state machine.  Randomness (`Math.random`) is modelled by explicit streams
of natural numbers: at loop index `i` the JS code draws
`Math.floor(Math.random() * (i + 1))`, a uniform value in `[0, i]`, which we
model as `rnd i % (i + 1)` for an arbitrary `rnd : Nat → Nat`; every
possible JS execution corresponds to some such stream.  `generate` performs
several independent shuffles, so it takes `rnd : Nat → Nat → Nat`, the first
argument indexing the shuffle invocation.

Mutation is modelled two ways: the pure functions below (lists are values),
and, for the frame-effect claim, a store-passing model (`Store`) in which
each JS array that is ever shuffled in place has a heap reference.
-/

/- ### Definitions (embedding of the engine, heap model, fixtures) -/

/-- Constant `QUESTIONS_PER_ROUND` from the source: questions per round. -/
def QUESTIONS_PER_ROUND : Nat := 10

/-- Constant `OPTIONS_COUNT` from the source: answer options per question. -/
def OPTIONS_COUNT : Nat := 4

/-- A country record from the static catalog: `code`, `name`, `continent`. -/
structure Country where
  code : String
  name : String
  continent : String
deriving DecidableEq

/-- Swap the entries at positions `i` and `j` of a list
(the body of the Fisher–Yates loop:
`[array[i], array[j]] = [array[j], array[i]]`).
Out-of-range indices leave the list unchanged (never hit by `shuffle`). -/
def swapElems {α : Type} (l : List α) (i j : Nat) : List α :=
  match l[i]?, l[j]? with
  | some a, some b => (l.set i b).set j a
  | _, _ => l

/-- The Fisher–Yates loop of `shuffle`, counting `i` down:
`for (let i = array.length - 1; i > 0; i--) { j = ⌊rand*(i+1)⌋; swap i j }`. -/
def shuffleIter {α : Type} (rnd : Nat → Nat) : Nat → List α → List α
  | 0, l => l
  | i + 1, l => shuffleIter rnd i (swapElems l (i + 1) (rnd (i + 1) % (i + 2)))

/-- Function `shuffle(array)` from the source, with the random draws made explicit:
permutes the list by the Fisher–Yates procedure. -/
def shuffle {α : Type} (rnd : Nat → Nat) (l : List α) : List α :=
  shuffleIter rnd (l.length - 1) l

/-- The `Question` class: target country, presented options, derived
`correctCode`. -/
structure Question where
  country : Country
  options : List Country
  correctCode : String
deriving DecidableEq

/-- The `Question` constructor: `this.correctCode = country.code`. -/
def Question.make (country : Country) (options : List Country) : Question :=
  { country := country, options := options, correctCode := country.code }

/-- Method `Question.isCorrect(selectedCode)`: `selectedCode === this.correctCode`. -/
def Question.isCorrect (q : Question) (selectedCode : String) : Bool :=
  selectedCode == q.correctCode

/-- One entry of `selected.map(...)` in `QuestionGenerator.generate`: build
the `Question` for target `country`, where `k` is the position of the
target in `selected` (used only to index the random streams: the JS code
draws from one global `Math.random`). -/
def mkQuestion (rnd : Nat → Nat → Nat) (pool : List Country) (k : Nat)
    (country : Country) : Question :=
  let distractors :=
    (shuffle (rnd (1 + 2 * k))
      (pool.filter (fun c => c.code != country.code))).take (OPTIONS_COUNT - 1)
  let options := shuffle (rnd (2 + 2 * k)) (country :: distractors)
  Question.make country options

/-- The `selected.map(...)` loop of `generate`, with the running index `k`
made explicit. -/
def generateFrom (rnd : Nat → Nat → Nat) (pool : List Country) :
    Nat → List Country → List Question
  | _, [] => []
  | k, country :: rest =>
      mkQuestion rnd pool k country :: generateFrom rnd pool (k + 1) rest

/-- Operation `QuestionGenerator.generate(pool, count)`:
`shuffle([...pool]).slice(0, count)` picks the targets, then one `Question`
is built per target. -/
def generate (rnd : Nat → Nat → Nat) (pool : List Country) (count : Nat) :
    List Question :=
  generateFrom rnd pool 0 ((shuffle (rnd 0) pool).take count)

/-- The result record of a successful answer submission. -/
structure SubmitResult where
  correct : Bool
  correctCode : String
deriving DecidableEq

/-- Outcome of `submitAnswer`: a normal return (`ok`, where `ok none` is the
`null` sentinel for double submission), or a thrown TypeError (the JS code
reads `this.questions[this.currentIndex]`, which is `undefined` past the end
of the round, and then calls `.isCorrect` on it). -/
inductive SubmitOutcome where
  | ok (res : Option SubmitResult)
  | thrown
deriving DecidableEq

/-- The `QuizGame` state: catalog, active round, position, score, latch. -/
structure QuizGame where
  allCountries : List Country
  questions : List Question
  currentIndex : Nat
  score : Nat
  answered : Bool
deriving DecidableEq

/-- The `QuizGame` constructor. -/
def QuizGame.init (allCountries : List Country) : QuizGame :=
  { allCountries := allCountries, questions := [], currentIndex := 0,
    score := 0, answered := false }

/-- The pool computed by `start`: the guard `continent && continent !== "all"`
filters by continent; a `null` (`none`), `"all"`, or empty-string filter
(the empty string is falsy in JS) selects the whole catalog. -/
def startPool (allCountries : List Country) (continent : Option String) :
    List Country :=
  match continent with
  | some c =>
      if c ≠ "" ∧ c ≠ "all" then
        allCountries.filter (fun x => x.continent == c)
      else allCountries
  | none => allCountries

/-- Operation `QuizGame.start(continent)`: throws (`Except.error`) when the pool has
fewer than `OPTIONS_COUNT` entries, else installs a freshly generated round
and resets `currentIndex`, `score` and `answered`. -/
def QuizGame.start (g : QuizGame) (rnd : Nat → Nat → Nat)
    (continent : Option String) : Except String QuizGame :=
  let pool := startPool g.allCountries continent
  if pool.length < OPTIONS_COUNT then
    Except.error "Te weinig landen voor continent"
  else
    Except.ok { g with questions := generate rnd pool QUESTIONS_PER_ROUND,
                       currentIndex := 0, score := 0, answered := false }

/-- Getter `currentQuestion`: `null` once `currentIndex` passes the end. -/
def QuizGame.currentQuestion (g : QuizGame) : Option Question :=
  if g.currentIndex ≥ g.questions.length then none
  else g.questions[g.currentIndex]?

/-- Getter `questionNumber` (1-based). -/
def QuizGame.questionNumber (g : QuizGame) : Nat := g.currentIndex + 1

/-- Getter `totalQuestions`. -/
def QuizGame.totalQuestions (g : QuizGame) : Nat := g.questions.length

/-- Getter `isGameOver`: `currentIndex >= questions.length`. -/
def QuizGame.isGameOver (g : QuizGame) : Bool :=
  decide (g.currentIndex ≥ g.questions.length)

/-- First-occurrence deduplication: the iteration order of
`[...new Set(xs)]` is insertion order, keeping the first occurrence. -/
def dedupFirst : List String → List String
  | [] => []
  | x :: xs => x :: dedupFirst (xs.filter (fun y => y != x))
termination_by l => l.length
decreasing_by
  simp only [List.length_cons]
  exact Nat.lt_succ_of_le (List.length_filter_le _ _)

/-- Getter `continents`: `[...new Set(map(continent))]`, drop
`"Antarctica"`, then JS `.sort()` (ascending lexicographic). -/
def QuizGame.continents (g : QuizGame) : List String :=
  List.insertionSort (fun a b => a ≤ b)
    ((dedupFirst (g.allCountries.map (fun c => c.continent))).filter
      (fun c => c != "Antarctica"))

/-- Operation `submitAnswer(selectedCode)`.  The `answered` latch makes it return the
`null` sentinel; otherwise the current question is read from the array and
graded.  Note the latch is set before the array access, so a throw still
leaves `answered = true`. -/
def QuizGame.submitAnswer (g : QuizGame) (selectedCode : String) :
    SubmitOutcome × QuizGame :=
  if g.answered then (SubmitOutcome.ok none, g)
  else
    let g1 := { g with answered := true }
    match g1.questions[g1.currentIndex]? with
    | none => (SubmitOutcome.thrown, g1)
    | some question =>
      let correct := question.isCorrect selectedCode
      let g2 := if correct then { g1 with score := g1.score + 1 } else g1
      (SubmitOutcome.ok (some { correct := correct,
                                correctCode := question.correctCode }), g2)

/-- Operation `nextQuestion()`: advance, clear the latch, report `!isGameOver`. -/
def QuizGame.nextQuestion (g : QuizGame) : Bool × QuizGame :=
  let g1 := { g with currentIndex := g.currentIndex + 1, answered := false }
  (!g1.isGameOver, g1)

/-- Iterate `nextQuestion` (discarding the returned flag). -/
def advanceN (g : QuizGame) : Nat → QuizGame
  | 0 => g
  | n + 1 => advanceN (g.nextQuestion).2 n

/-- A heap of JS arrays of country records: contents per reference, and the
next fresh reference.  Only arrays that are ever shuffled in place need a
reference; `slice`/`map` results are never mutated and stay pure values. -/
structure Store where
  data : Nat → List Country
  next : Nat

/-- Allocate a fresh array (`[...xs]`, a `filter` result, or an array
literal). -/
def Store.alloc (σ : Store) (l : List Country) : Nat × Store :=
  (σ.next,
   { data := fun r => if r = σ.next then l else σ.data r,
     next := σ.next + 1 })

/-- Overwrite the array at reference `r` (in-place mutation). -/
def Store.write (σ : Store) (r : Nat) (l : List Country) : Store :=
  { data := fun r2 => if r2 = r then l else σ.data r2, next := σ.next }

/-- Operation `shuffle(a)` on a heap array: Fisher–Yates permutes `a` in place. -/
def shuffleRef (rnd : Nat → Nat) (σ : Store) (r : Nat) : Store :=
  σ.write r (shuffle rnd (σ.data r))

/-- One iteration of the `selected.map(...)` callback of `generate` on the
heap: it reads the caller's `pool` array, allocates the `filter` result and
the literal `[country, ...distractors]`, and shuffles only those two fresh
arrays in place. -/
def generateStep (rnd : Nat → Nat → Nat) (poolRef : Nat)
    (acc : List Question × Store) (kc : Nat × Country) :
    List Question × Store :=
  let σa := acc.2
  let k := kc.1
  let country := kc.2
  let fa := σa.alloc
    ((σa.data poolRef).filter (fun c => c.code != country.code))
  let σc := shuffleRef (rnd (1 + 2 * k)) fa.2 fa.1
  let distractors := (σc.data fa.1).take (OPTIONS_COUNT - 1)
  let oa := σc.alloc (country :: distractors)
  let σe := shuffleRef (rnd (2 + 2 * k)) oa.2 oa.1
  (acc.1 ++ [Question.make country (σe.data oa.1)], σe)

/-- Operation `QuestionGenerator.generate` on the heap: `[...pool]` allocates a copy,
which is shuffled in place; then one `generateStep` per selected target. -/
def generateHeap (rnd : Nat → Nat → Nat) (σ : Store) (poolRef : Nat)
    (count : Nat) : List Question × Store :=
  let ca := σ.alloc (σ.data poolRef)
  let σ2 := shuffleRef (rnd 0) ca.2 ca.1
  let selected := (σ2.data ca.1).take count
  selected.enum.foldl (generateStep rnd poolRef) ([], σ2)

/-- Operation `QuizGame.start` on the heap: both branches of the pool expression
allocate a fresh array (a `filter` result or the spread `[...catalog]`),
then hand it to the generator. -/
def startHeap (rnd : Nat → Nat → Nat) (σ : Store) (allRef : Nat)
    (continent : Option String) : Except String (List Question) × Store :=
  let pa := σ.alloc (startPool (σ.data allRef) continent)
  if ((pa.2).data pa.1).length < OPTIONS_COUNT then
    (Except.error "Te weinig landen voor continent", pa.2)
  else
    let qs := generateHeap rnd pa.2 pa.1 QUESTIONS_PER_ROUND
    (Except.ok qs.1, qs.2)

/-- Run a sequence of `start` calls against the heap, each with its own
random stream and continent filter. -/
def runStarts (allRef : Nat) :
    List ((Nat → Nat → Nat) × Option String) → Store → Store
  | [], σ => σ
  | op :: rest, σ => runStarts allRef rest (startHeap op.1 σ allRef op.2).2

/-- The 5-country scenario catalog from the spec's test section. -/
def catalog5 : List Country :=
  [{ code := "AD", name := "Andorra", continent := "Europe" },
   { code := "AE", name := "UAE", continent := "Asia" },
   { code := "AF", name := "Afghanistan", continent := "Asia" },
   { code := "AG", name := "Antigua", continent := "North America" },
   { code := "AL", name := "Albania", continent := "Europe" }]

/-- A deterministic random stream: every draw is 0. -/
def zeroRnd : Nat → Nat → Nat := fun _ _ => 0

/-- The state after a successful `start("all")` on the 5-country catalog
with the all-zero random stream. -/
def afterStart : QuizGame :=
  match (QuizGame.init catalog5).start zeroRnd (some "all") with
  | Except.ok g => g
  | Except.error _ => QuizGame.init catalog5

/-- The correct code of the current question (empty when the round is
over); used to submit a correct answer in concrete runs. -/
def answerKey (g : QuizGame) : String :=
  match g.currentQuestion with
  | some q => q.correctCode
  | none => ""

/-- State `afterStart` after answering its first question correctly: score 1. -/
def gScored : QuizGame := (afterStart.submitAnswer (answerKey afterStart)).2

/-- A sample question out of a concrete generated round. -/
def sampleQ : Question :=
  (generate zeroRnd catalog5 10).headD
    (Question.make { code := "", name := "", continent := "" } [])

/-- A one-array heap: the catalog lives at reference 0. -/
def store0 : Store :=
  { data := fun r => if r = 0 then catalog5 else [], next := 1 }

/-- The pool as the claim words it: `null` or `"all"` selects the whole
catalog, any other filter selects the records whose continent equals it,
except that (amendment) the empty string also selects the whole catalog
(it is falsy in JS, so the guard `continent && continent !== "all"` treats
it like `null`). -/
def specStartPool (allCountries : List Country)
    (continent : Option String) : List Country :=
  match continent with
  | none => allCountries
  | some c =>
      if c = "" ∨ c = "all" then allCountries
      else allCountries.filter (fun x => x.continent == c)

/- ### Theorems -/

theorem swapElems_perm {α : Type} [DecidableEq α] (l : List α) (i j : Nat) :
    (swapElems l i j).Perm l := by
  unfold swapElems
  cases h1 : l[i]? with
  | none => exact List.Perm.refl l
  | some a =>
    cases h2 : l[j]? with
    | none => exact List.Perm.refl l
    | some b =>
      rw [List.getElem?_eq_some_iff] at h1 h2
      obtain ⟨hi, ha⟩ := h1
      obtain ⟨hj, hb⟩ := h2
      rw [List.perm_iff_count]
      intro c
      have hlen : (l.set i b).length = l.length := by simp
      have hj' : j < (l.set i b).length := by simpa using hj
      rw [List.count_set a c (l.set i b) j hj',
          List.count_set b c l i hi]
      have hib : (l.set i b)[j] = if i = j then b else l[j] := by
        by_cases hij : i = j
        · subst hij; simp
        · rw [List.getElem_set_ne hij]; simp [hij]
      have hcount_i := List.boole_getElem_le_count c l i hi
      have hcount_j := List.boole_getElem_le_count c l j hj
      by_cases hij : i = j
      · subst hij
        rw [hib]
        simp only [if_pos rfl]
        subst ha hb
        split_ifs at hcount_i ⊢ <;> omega
      · rw [hib, if_neg hij]
        subst ha hb
        split_ifs at hcount_i hcount_j ⊢ <;> omega

theorem shuffleIter_perm {α : Type} [DecidableEq α] (rnd : Nat → Nat) :
    ∀ (i : Nat) (l : List α), (shuffleIter rnd i l).Perm l
  | 0, _ => List.Perm.refl _
  | i + 1, l =>
      (shuffleIter_perm rnd i _).trans
        (swapElems_perm l (i + 1) (rnd (i + 1) % (i + 2)))

/-- The embedded `shuffle` returns a permutation of its input. -/
theorem shuffle_perm {α : Type} [DecidableEq α] (rnd : Nat → Nat)
    (l : List α) : (shuffle rnd l).Perm l :=
  shuffleIter_perm rnd (l.length - 1) l

theorem shuffle_length {α : Type} [DecidableEq α] (rnd : Nat → Nat)
    (l : List α) : (shuffle rnd l).length = l.length :=
  (shuffle_perm rnd l).length_eq

theorem generateFrom_length (rnd : Nat → Nat → Nat) (pool : List Country) :
    ∀ (k : Nat) (sel : List Country),
      (generateFrom rnd pool k sel).length = sel.length
  | _, [] => rfl
  | k, _ :: rest => by
      simp [generateFrom, generateFrom_length rnd pool (k + 1) rest]

theorem mkQuestion_country (rnd : Nat → Nat → Nat) (pool : List Country)
    (k : Nat) (c : Country) : (mkQuestion rnd pool k c).country = c := rfl

theorem generateFrom_map_code (rnd : Nat → Nat → Nat) (pool : List Country) :
    ∀ (k : Nat) (sel : List Country),
      (generateFrom rnd pool k sel).map (fun q => q.country.code) =
        sel.map (fun c => c.code)
  | _, [] => rfl
  | k, c :: rest => by
      simp [generateFrom, mkQuestion_country,
            generateFrom_map_code rnd pool (k + 1) rest]

theorem mem_generateFrom (rnd : Nat → Nat → Nat) (pool : List Country)
    {q : Question} :
    ∀ {k : Nat} {sel : List Country}, q ∈ generateFrom rnd pool k sel →
      ∃ k2 c, c ∈ sel ∧ q = mkQuestion rnd pool k2 c := by
  intro k sel
  induction sel generalizing k with
  | nil => intro h; cases h
  | cons c rest ih =>
      intro h
      rcases List.mem_cons.mp h with h | h
      · exact ⟨k, c, List.mem_cons_self c rest, h⟩
      · obtain ⟨k2, c2, hmem, heq⟩ := ih h
        exact ⟨k2, c2, List.mem_cons_of_mem c hmem, heq⟩

/-- With pairwise-distinct codes, the pool entries sharing the target's code
number exactly one. -/
theorem countP_code_eq_one {pool : List Country} {country : Country}
    (hnd : (pool.map (fun c => c.code)).Nodup) (hmem : country ∈ pool) :
    pool.countP (fun c => c.code == country.code) = 1 := by
  have h1 : pool.countP (fun c => c.code == country.code) =
      (pool.map (fun c => c.code)).count country.code := by
    rw [List.count_eq_countP, List.countP_map]
    rfl
  have h2 : (pool.map (fun c => c.code)).count country.code ≤ 1 :=
    List.nodup_iff_count_le_one.mp hnd _
  have h3 : 0 < (pool.map (fun c => c.code)).count country.code :=
    List.count_pos_iff.mpr (List.mem_map_of_mem _ hmem)
  omega

/-- With pairwise-distinct codes, filtering out the target's code removes
exactly one entry. -/
theorem length_filter_ne_code {pool : List Country} {country : Country}
    (hnd : (pool.map (fun c => c.code)).Nodup) (hmem : country ∈ pool) :
    (pool.filter (fun c => c.code != country.code)).length =
      pool.length - 1 := by
  have hperm :
      pool.filter (fun c => c.code == country.code) ++
        pool.filter (fun c => !(c.code == country.code)) |>.Perm pool :=
    List.filter_append_perm _ pool
  have hlen := hperm.length_eq
  rw [List.length_append] at hlen
  have h1 : (pool.filter (fun c => c.code == country.code)).length = 1 := by
    rw [← List.countP_eq_length_filter]
    exact countP_code_eq_one hnd hmem
  have hsame : pool.filter (fun c => !(c.code == country.code)) =
      pool.filter (fun c => c.code != country.code) := rfl
  rw [hsame] at hlen
  omega

/-- Question invariants: for a pool of at least 4 countries with
pairwise-distinct codes and a target from the pool, the built question has
4 options with pairwise-distinct codes, exactly one of them carrying
`correctCode`, which is the target's code. -/
theorem mkQuestion_spec (rnd : Nat → Nat → Nat) (pool : List Country)
    (k : Nat) (country : Country)
    (hnd : (pool.map (fun c => c.code)).Nodup)
    (hlen : 4 ≤ pool.length) (hmem : country ∈ pool) :
    (mkQuestion rnd pool k country).options.length = 4 ∧
    ((mkQuestion rnd pool k country).options.map (fun c => c.code)).Nodup ∧
    (mkQuestion rnd pool k country).options.countP
      (fun c => c.code == (mkQuestion rnd pool k country).correctCode) = 1 ∧
    (mkQuestion rnd pool k country).correctCode =
      (mkQuestion rnd pool k country).country.code := by
  have hOC : OPTIONS_COUNT - 1 = 3 := rfl
  simp only [mkQuestion, Question.make, hOC]
  set filtered := pool.filter (fun c => c.code != country.code) with hfdef
  set distractors :=
    (shuffle (rnd (1 + 2 * k)) filtered).take 3 with hddef
  set options := shuffle (rnd (2 + 2 * k)) (country :: distractors)
    with hodef
  -- facts about the filtered pool
  have hndf : (filtered.map (fun c => c.code)).Nodup :=
    hnd.sublist ((List.filter_sublist pool).map _)
  have hmemf : ∀ c ∈ filtered, c.code ≠ country.code := by
    intro c hc
    have := (List.mem_filter.mp hc).2
    simpa using this
  have hflen : filtered.length = pool.length - 1 :=
    length_filter_ne_code hnd hmem
  -- facts about the distractors
  have hshuffperm := shuffle_perm (rnd (1 + 2 * k)) filtered
  have hdsub : distractors.Sublist (shuffle (rnd (1 + 2 * k)) filtered) :=
    List.take_sublist _ _
  have hndd : (distractors.map (fun c => c.code)).Nodup :=
    (((hshuffperm.map (fun c => c.code)).nodup_iff).mpr hndf).sublist
      (hdsub.map _)
  have hdmem : ∀ c ∈ distractors, c.code ≠ country.code := by
    intro c hc
    exact hmemf c (hshuffperm.mem_iff.mp (hdsub.subset hc))
  have hdlen : distractors.length = 3 := by
    rw [hddef, List.length_take, shuffle_length, hflen]
    omega
  -- facts about the options
  have hoperm := shuffle_perm (rnd (2 + 2 * k)) (country :: distractors)
  refine ⟨?_, ?_, ?_, trivial⟩
  · rw [hoperm.length_eq, List.length_cons, hdlen]
  · refine ((hoperm.map (fun c => c.code)).nodup_iff).mpr ?_
    rw [List.map_cons, List.nodup_cons]
    refine ⟨?_, hndd⟩
    intro hin
    obtain ⟨c, hc, hceq⟩ := List.mem_map.mp hin
    exact hdmem c hc hceq
  · rw [hoperm.countP_eq, List.countP_cons_of_pos _ _ (by simp),
        List.countP_eq_zero.mpr ?_]
    intro c hc
    simpa using hdmem c hc

theorem generateStep_frame (rnd : Nat → Nat → Nat) (poolRef : Nat)
    (acc : List Question × Store) (kc : Nat × Country) (r : Nat)
    (h : r < acc.2.next) :
    ((generateStep rnd poolRef acc kc).2.data r = acc.2.data r) ∧
      acc.2.next ≤ (generateStep rnd poolRef acc kc).2.next := by
  have h1 : r ≠ acc.2.next := Nat.ne_of_lt h
  have h2 : r ≠ acc.2.next + 1 := Nat.ne_of_lt (Nat.lt_succ_of_lt h)
  constructor
  · simp [generateStep, Store.alloc, shuffleRef, Store.write, h1, h2]
  · simp [generateStep, Store.alloc, shuffleRef, Store.write]
    omega

theorem foldl_generateStep_frame (rnd : Nat → Nat → Nat) (poolRef : Nat) :
    ∀ (l : List (Nat × Country)) (acc : List Question × Store) (r : Nat),
      r < acc.2.next →
      ((l.foldl (generateStep rnd poolRef) acc).2.data r = acc.2.data r) ∧
        acc.2.next ≤ (l.foldl (generateStep rnd poolRef) acc).2.next
  | [], _, _, _ => ⟨rfl, Nat.le_refl _⟩
  | kc :: rest, acc, r, h => by
      have hstep := generateStep_frame rnd poolRef acc kc r h
      have hrec := foldl_generateStep_frame rnd poolRef rest
        (generateStep rnd poolRef acc kc) r (Nat.lt_of_lt_of_le h hstep.2)
      rw [List.foldl_cons]
      exact ⟨hrec.1.trans hstep.1, Nat.le_trans hstep.2 hrec.2⟩

theorem generateHeap_frame (rnd : Nat → Nat → Nat) (σ : Store)
    (poolRef : Nat) (count : Nat) (r : Nat) (h : r < σ.next) :
    ((generateHeap rnd σ poolRef count).2.data r = σ.data r) ∧
      σ.next ≤ (generateHeap rnd σ poolRef count).2.next := by
  have h1 : r ≠ σ.next := Nat.ne_of_lt h
  have hfold := foldl_generateStep_frame rnd poolRef
    (((shuffleRef (rnd 0) (σ.alloc (σ.data poolRef)).2
        (σ.alloc (σ.data poolRef)).1).data
          (σ.alloc (σ.data poolRef)).1).take count).enum
    ([], shuffleRef (rnd 0) (σ.alloc (σ.data poolRef)).2
        (σ.alloc (σ.data poolRef)).1) r
    (by simp [Store.alloc, shuffleRef, Store.write]; omega)
  constructor
  · show (generateHeap rnd σ poolRef count).2.data r = σ.data r
    unfold generateHeap
    refine hfold.1.trans ?_
    simp [Store.alloc, shuffleRef, Store.write, h1]
  · show σ.next ≤ (generateHeap rnd σ poolRef count).2.next
    unfold generateHeap
    refine Nat.le_trans ?_ hfold.2
    simp [Store.alloc, shuffleRef, Store.write]

theorem startHeap_frame (rnd : Nat → Nat → Nat) (σ : Store) (allRef : Nat)
    (continent : Option String) (r : Nat) (h : r < σ.next) :
    ((startHeap rnd σ allRef continent).2.data r = σ.data r) ∧
      σ.next ≤ (startHeap rnd σ allRef continent).2.next := by
  have h1 : r ≠ σ.next := Nat.ne_of_lt h
  unfold startHeap
  by_cases hp :
      (((σ.alloc (startPool (σ.data allRef) continent)).2).data
        (σ.alloc (startPool (σ.data allRef) continent)).1).length <
        OPTIONS_COUNT
  · simp only [hp, if_pos]
    constructor
    · simp [Store.alloc, h1]
    · simp [Store.alloc]
  · simp only [hp, if_neg, not_false_iff]
    have hgen := generateHeap_frame rnd
      (σ.alloc (startPool (σ.data allRef) continent)).2
      (σ.alloc (startPool (σ.data allRef) continent)).1
      QUESTIONS_PER_ROUND r
      (by simp [Store.alloc]; omega)
    constructor
    · refine hgen.1.trans ?_
      simp [Store.alloc, h1]
    · refine Nat.le_trans ?_ hgen.2
      simp [Store.alloc]

theorem runStarts_frame (allRef : Nat) :
    ∀ (ops : List ((Nat → Nat → Nat) × Option String)) (σ : Store) (r : Nat),
      r < σ.next →
      (runStarts allRef ops σ).data r = σ.data r ∧
        σ.next ≤ (runStarts allRef ops σ).next
  | [], _, _, _ => ⟨rfl, Nat.le_refl _⟩
  | op :: rest, σ, r, h => by
      have hstep := startHeap_frame op.1 σ allRef op.2 r h
      have hrec := runStarts_frame allRef rest (startHeap op.1 σ allRef op.2).2
        r (Nat.lt_of_lt_of_le h hstep.2)
      exact ⟨hrec.1.trans hstep.1, Nat.le_trans hstep.2 hrec.2⟩

/-- C1 (counterexample): the round-over, `answered = false` state is
reachable (fresh `start`, then the round exhausted by `nextQuestion`), and
`submitAnswer` called there throws instead of returning a value. -/
theorem claim1_counterexample :
    (advanceN afterStart 5).questions.length ≤
        (advanceN afterStart 5).currentIndex ∧
      (advanceN afterStart 5).answered = false ∧
      ((advanceN afterStart 5).submitAnswer "AD").1 =
        SubmitOutcome.thrown := by
  decide

/-- C1 (amended): after a successful start, `submitAnswer` completes
normally whenever the question was already answered or a question remains
(double submission returning the null sentinel, the queries being total);
but in the round-over state with `answered = false` it throws (it reads a
missing question), rather than returning a value. -/
theorem claim1_amended (g : QuizGame) (code : String) :
    (g.answered = true ∨ g.currentIndex < g.questions.length →
      (g.submitAnswer code).1 ≠ SubmitOutcome.thrown) ∧
    (g.answered = false → g.questions.length ≤ g.currentIndex →
      (g.submitAnswer code).1 = SubmitOutcome.thrown) := by
  constructor
  · intro h
    by_cases ha : g.answered
    · simp [QuizGame.submitAnswer, ha]
    · have hlt : g.currentIndex < g.questions.length := by
        cases h with
        | inl h1 => exact absurd h1 ha
        | inr h2 => exact h2
      simp only [QuizGame.submitAnswer, ha, Bool.false_eq_true, if_neg,
        not_false_iff]
      rw [List.getElem?_eq_getElem hlt]
      by_cases hc :
          (g.questions[g.currentIndex]).isCorrect code = true <;>
        simp [hc]
  · intro ha hge
    simp [QuizGame.submitAnswer, ha, List.getElem?_eq_none hge]

/-- C1 (witness). -/
theorem claim1_witness :
    ((afterStart.submitAnswer "AD").1 ≠ SubmitOutcome.thrown) ∧
      (((advanceN afterStart 5).submitAnswer "AD").1 =
        SubmitOutcome.thrown) :=
  ⟨(claim1_amended afterStart "AD").1 (Or.inr (by decide)),
   (claim1_amended (advanceN afterStart 5) "AD").2 (by decide) (by decide)⟩

/-- C2: `generate(pool, count)` returns exactly `min count pool.length`
questions; in particular a 5-country pool with the round size 10 yields 5,
and any pool of at least 10 countries yields exactly 10. -/
theorem claim2_generate_length :
    (∀ (rnd : Nat → Nat → Nat) (pool : List Country) (count : Nat),
      (generate rnd pool count).length = min count pool.length) ∧
    (∀ rnd : Nat → Nat → Nat,
      (((QuizGame.init catalog5).start rnd (some "all")).toOption.map
        (fun g => g.questions.length)) = some 5) ∧
    (∀ (rnd : Nat → Nat → Nat) (pool : List Country), 10 ≤ pool.length →
      (generate rnd pool QUESTIONS_PER_ROUND).length = 10) := by
  have hgen : ∀ (rnd : Nat → Nat → Nat) (pool : List Country) (count : Nat),
      (generate rnd pool count).length = min count pool.length := by
    intro rnd pool count
    unfold generate
    rw [generateFrom_length, List.length_take, shuffle_length]
  refine ⟨hgen, ?_, ?_⟩
  · intro rnd
    show (((QuizGame.init catalog5).start rnd (some "all")).toOption.map
      (fun g => g.questions.length)) = some 5
    unfold QuizGame.start
    rw [if_neg (by decide)]
    show some (generate rnd catalog5 QUESTIONS_PER_ROUND).length = some 5
    rw [hgen]
    rfl
  · intro rnd pool h
    rw [hgen]
    have : QUESTIONS_PER_ROUND = 10 := rfl
    rw [this]
    omega

/-- C2 (witness). -/
theorem claim2_witness :
    10 ≤ (catalog5 ++ catalog5).length ∧
      (generate zeroRnd (catalog5 ++ catalog5)
        QUESTIONS_PER_ROUND).length = 10 :=
  ⟨by decide,
   claim2_generate_length.2.2 zeroRnd (catalog5 ++ catalog5) (by decide)⟩

/-- C3: for a pool of at least 4 countries with pairwise-distinct codes,
every generated question has exactly 4 options with pairwise-distinct
codes, exactly one option carries `correctCode`, and `correctCode` is the
target country's code. -/
theorem claim3_question_options (rnd : Nat → Nat → Nat)
    (pool : List Country) (count : Nat) (q : Question)
    (hnd : (pool.map (fun c => c.code)).Nodup)
    (hlen : 4 ≤ pool.length)
    (hq : q ∈ generate rnd pool count) :
    q.options.length = 4 ∧
    (q.options.map (fun c => c.code)).Nodup ∧
    q.options.countP (fun c => c.code == q.correctCode) = 1 ∧
    q.correctCode = q.country.code := by
  obtain ⟨k2, c, hmem, heq⟩ := mem_generateFrom rnd pool hq
  have hcpool : c ∈ pool :=
    (shuffle_perm (rnd 0) pool).mem_iff.mp
      ((List.take_sublist _ _).subset hmem)
  subst heq
  exact mkQuestion_spec rnd pool k2 c hnd hlen hcpool

/-- C3 (witness). -/
theorem claim3_witness :
    (catalog5.map (fun c => c.code)).Nodup ∧ 4 ≤ catalog5.length ∧
      sampleQ ∈ generate zeroRnd catalog5 10 ∧
      (sampleQ.options.length = 4 ∧
        (sampleQ.options.map (fun c => c.code)).Nodup ∧
        sampleQ.options.countP
          (fun c => c.code == sampleQ.correctCode) = 1 ∧
        sampleQ.correctCode = sampleQ.country.code) :=
  ⟨by decide, by decide, by decide,
   claim3_question_options zeroRnd catalog5 10 sampleQ
     (by decide) (by decide) (by decide)⟩

/-- C4: with pairwise-distinct codes and `pool.length ≥ count`, no two
questions of a generated round share a target-country code (targets are
sampled without replacement). -/
theorem claim4_distinct_targets (rnd : Nat → Nat → Nat)
    (pool : List Country) (count : Nat)
    (hnd : (pool.map (fun c => c.code)).Nodup)
    (_hc : count ≤ pool.length) :
    ((generate rnd pool count).map (fun q => q.country.code)).Nodup := by
  unfold generate
  rw [generateFrom_map_code]
  exact (((shuffle_perm (rnd 0) pool).map (fun c => c.code)).nodup_iff.mpr
    hnd).sublist ((List.take_sublist _ _).map _)

/-- C4 (witness). -/
theorem claim4_witness :
    (catalog5.map (fun c => c.code)).Nodup ∧ 5 ≤ catalog5.length ∧
      ((generate zeroRnd catalog5 5).map
        (fun q => q.country.code)).Nodup :=
  ⟨by decide, by decide,
   claim4_distinct_targets zeroRnd catalog5 5 (by decide) (by decide)⟩

/-- C5 (counterexample): on the 5-country catalog, the filter `""` is
neither `null` nor `"all"`, and no record's continent is `""`, so the claim
demands `start("")` to fail (pool 0 < 4); the code instead uses the whole
catalog and succeeds. -/
theorem claim5_counterexample :
    ¬ ((((QuizGame.init catalog5).start zeroRnd (some "")).isOk = false) ↔
        (catalog5.filter (fun c => c.continent == "")).length < 4) := by
  decide

/-- C5 (amended): `start` fails exactly when the pool is smaller than 4,
where the pool is the full catalog for a `null`, `"all"` or empty-string
filter and the continent-filtered catalog otherwise; on success it resets
`currentIndex`, `score`, `answered` and installs a freshly generated
round. -/
theorem claim5_amended (g : QuizGame) (rnd : Nat → Nat → Nat)
    (continent : Option String) :
    (((g.start rnd continent).isOk = false) ↔
      (specStartPool g.allCountries continent).length < 4) ∧
    (∀ g', g.start rnd continent = Except.ok g' →
      g'.currentIndex = 0 ∧ g'.score = 0 ∧ g'.answered = false ∧
      g'.questions =
        generate rnd (specStartPool g.allCountries continent)
          QUESTIONS_PER_ROUND ∧
      g'.allCountries = g.allCountries) := by
  have hpool : specStartPool g.allCountries continent =
      startPool g.allCountries continent := by
    cases continent with
    | none => rfl
    | some c =>
        by_cases h1 : c = "" <;> by_cases h2 : c = "all" <;>
          simp [specStartPool, startPool, h1, h2]
  rw [hpool]
  unfold QuizGame.start
  by_cases hlt : (startPool g.allCountries continent).length < OPTIONS_COUNT
  · rw [if_pos hlt]
    constructor
    · simpa [Except.isOk, Except.toBool, OPTIONS_COUNT] using hlt
    · intro g' h
      cases h
  · rw [if_neg hlt]
    constructor
    · simp only [Except.isOk, Except.toBool, Bool.true_eq_false,
        false_iff]
      simpa [OPTIONS_COUNT] using hlt
    · intro g' h
      cases h
      exact ⟨rfl, rfl, rfl, rfl, rfl⟩

/-- C5 (witness). -/
theorem claim5_witness :
    ((QuizGame.init catalog5).start zeroRnd (some "all") =
        Except.ok afterStart) ∧
      (afterStart.currentIndex = 0 ∧ afterStart.score = 0 ∧
        afterStart.answered = false ∧
        afterStart.questions =
          generate zeroRnd
            (specStartPool (QuizGame.init catalog5).allCountries
              (some "all")) QUESTIONS_PER_ROUND ∧
        afterStart.allCountries = (QuizGame.init catalog5).allCountries) :=
  ⟨by rfl,
   (claim5_amended (QuizGame.init catalog5) zeroRnd (some "all")).2
     afterStart (by rfl)⟩

/-- Helper: `submitAnswer` from an unanswered in-round state sets the
latch, grades against the current question, and bumps the score exactly on
a correct answer. -/
theorem submitAnswer_spec (g : QuizGame) (code : String)
    (ha : g.answered = false) (hlt : g.currentIndex < g.questions.length) :
    g.submitAnswer code =
      (SubmitOutcome.ok (some
        { correct := (g.questions.get ⟨g.currentIndex, hlt⟩).isCorrect code,
          correctCode := (g.questions.get ⟨g.currentIndex, hlt⟩).correctCode }),
       { g with answered := true,
                score :=
                  if (g.questions.get ⟨g.currentIndex, hlt⟩).isCorrect code
                  then g.score + 1 else g.score }) := by
  unfold QuizGame.submitAnswer
  rw [if_neg (by simp [ha])]
  show (match g.questions[g.currentIndex]? with
        | none => (SubmitOutcome.thrown, { g with answered := true })
        | some question =>
            (SubmitOutcome.ok (some
              { correct := question.isCorrect code,
                correctCode := question.correctCode }),
             if question.isCorrect code
             then { g with answered := true, score := g.score + 1 }
             else { g with answered := true })) = _
  rw [List.getElem?_eq_getElem hlt]
  by_cases hc : (g.questions[g.currentIndex]).isCorrect code = true <;>
    simp [hc]

/-- C6: from an in-round state with `answered = false` and a question
remaining, two consecutive `submitAnswer` calls with no intervening
`nextQuestion` yield a real result then the null sentinel, and the score
changes by at most 1 across the two calls. -/
theorem claim6_double_submit (g : QuizGame) (c1 c2 : String)
    (ha : g.answered = false) (hlt : g.currentIndex < g.questions.length) :
    (∃ res, (g.submitAnswer c1).1 = SubmitOutcome.ok (some res)) ∧
    ((g.submitAnswer c1).2.submitAnswer c2).1 = SubmitOutcome.ok none ∧
    g.score ≤ ((g.submitAnswer c1).2.submitAnswer c2).2.score ∧
    ((g.submitAnswer c1).2.submitAnswer c2).2.score ≤ g.score + 1 := by
  have hspec := submitAnswer_spec g c1 ha hlt
  have h1 : (g.submitAnswer c1).1 = SubmitOutcome.ok (some
      { correct := (g.questions.get ⟨g.currentIndex, hlt⟩).isCorrect c1,
        correctCode := (g.questions.get ⟨g.currentIndex, hlt⟩).correctCode }) :=
    by rw [hspec]
  have h2 : (g.submitAnswer c1).2 =
      { g with answered := true,
               score := if (g.questions.get ⟨g.currentIndex, hlt⟩).isCorrect c1
                        then g.score + 1 else g.score } := by rw [hspec]
  have hsecond :
      ∀ s : Nat, (({ g with answered := true, score := s } :
          QuizGame).submitAnswer c2) =
        (SubmitOutcome.ok none, { g with answered := true, score := s }) :=
    fun s => by simp [QuizGame.submitAnswer]
  rw [h2]
  refine ⟨⟨_, h1⟩, ?_, ?_, ?_⟩ <;> rw [hsecond] <;> dsimp only <;>
    first
      | rfl
      | (split_ifs <;> omega)

/-- C6 (witness). -/
theorem claim6_witness :
    afterStart.answered = false ∧
    afterStart.currentIndex < afterStart.questions.length ∧
    ((∃ res, (afterStart.submitAnswer "AE").1 =
        SubmitOutcome.ok (some res)) ∧
     ((afterStart.submitAnswer "AE").2.submitAnswer "AF").1 =
        SubmitOutcome.ok none ∧
     afterStart.score ≤
        ((afterStart.submitAnswer "AE").2.submitAnswer "AF").2.score ∧
     ((afterStart.submitAnswer "AE").2.submitAnswer "AF").2.score ≤
        afterStart.score + 1) :=
  ⟨by decide, by decide,
   claim6_double_submit afterStart "AE" "AF" (by decide) (by decide)⟩

/-- C7 (counterexample): `submitAnswer` is not the only operation that
changes `score`: from a reachable state with `score = 1`, a successful
`start` changes `score` back to 0. -/
theorem claim7_counterexample :
    gScored.score = 1 ∧
      ((gScored.start zeroRnd (some "all")).toOption.map
        (fun g => g.score)) = some 0 := by
  decide

/-- C7 (amended): from an unanswered in-round state, `submitAnswer` sets
the latch, returns the graded result record of the current question, and
bumps `score` exactly on a correct answer; no operation other than
`submitAnswer` and `start` changes `score` (`nextQuestion` preserves it),
and `start` resets it to 0. -/
theorem claim7_amended (g : QuizGame) (code : String)
    (ha : g.answered = false)
    (hlt : g.currentIndex < g.questions.length) :
    (∃ q, g.questions[g.currentIndex]? = some q ∧
      (g.submitAnswer code).2.answered = true ∧
      (g.submitAnswer code).1 = SubmitOutcome.ok (some
        { correct := code == q.correctCode,
          correctCode := q.correctCode }) ∧
      (g.submitAnswer code).2.score =
        (if code == q.correctCode then g.score + 1 else g.score)) ∧
    (∀ g2 : QuizGame, (g2.nextQuestion).2.score = g2.score) ∧
    (∀ (g2 g3 : QuizGame) (rnd : Nat → Nat → Nat)
        (cont : Option String),
      g2.start rnd cont = Except.ok g3 → g3.score = 0) := by
  refine ⟨?_, fun g2 => rfl, ?_⟩
  · have hspec := submitAnswer_spec g code ha hlt
    refine ⟨g.questions.get ⟨g.currentIndex, hlt⟩,
      List.getElem?_eq_getElem hlt, ?_, ?_, ?_⟩
    · rw [hspec]
    · rw [hspec]; rfl
    · rw [hspec]; rfl
  · intro g2 g3 rnd cont h
    unfold QuizGame.start at h
    by_cases hlt2 :
        (startPool g2.allCountries cont).length < OPTIONS_COUNT
    · rw [if_pos hlt2] at h
      cases h
    · rw [if_neg hlt2] at h
      cases h
      rfl

/-- C7 (witness). -/
theorem claim7_witness :
    afterStart.answered = false ∧
    afterStart.currentIndex < afterStart.questions.length ∧
    ((∃ q, afterStart.questions[afterStart.currentIndex]? = some q ∧
        (afterStart.submitAnswer "AE").2.answered = true ∧
        (afterStart.submitAnswer "AE").1 = SubmitOutcome.ok (some
          { correct := "AE" == q.correctCode,
            correctCode := q.correctCode }) ∧
        (afterStart.submitAnswer "AE").2.score =
          (if "AE" == q.correctCode then afterStart.score + 1
           else afterStart.score)) ∧
      (∀ g2 : QuizGame, (g2.nextQuestion).2.score = g2.score) ∧
      (∀ (g2 g3 : QuizGame) (rnd : Nat → Nat → Nat)
          (cont : Option String),
        g2.start rnd cont = Except.ok g3 → g3.score = 0)) :=
  ⟨by decide, by decide,
   claim7_amended afterStart "AE" (by decide) (by decide)⟩

/-- Helper: iterating `nextQuestion` adds to `currentIndex` and leaves the
round untouched. -/
theorem advanceN_spec : ∀ (n : Nat) (g : QuizGame),
    (advanceN g n).currentIndex = g.currentIndex + n ∧
    (advanceN g n).questions = g.questions
  | 0, _ => ⟨rfl, rfl⟩
  | n + 1, g => by
      have ih := advanceN_spec n (g.nextQuestion).2
      refine ⟨?_, ih.2⟩
      show (advanceN (g.nextQuestion).2 n).currentIndex =
        g.currentIndex + (n + 1)
      rw [ih.1]
      show g.currentIndex + 1 + n = g.currentIndex + (n + 1)
      omega

/-- Helper: inversion of a successful `start`. -/
theorem start_ok_fields (g g' : QuizGame) (rnd : Nat → Nat → Nat)
    (cont : Option String) (h : g.start rnd cont = Except.ok g') :
    g'.questions =
        generate rnd (startPool g.allCountries cont) QUESTIONS_PER_ROUND ∧
      g'.currentIndex = 0 ∧ g'.score = 0 ∧ g'.answered = false ∧
      g'.allCountries = g.allCountries := by
  unfold QuizGame.start at h
  by_cases hlt : (startPool g.allCountries cont).length < OPTIONS_COUNT
  · rw [if_pos hlt] at h
    cases h
  · rw [if_neg hlt] at h
    cases h
    exact ⟨rfl, rfl, rfl, rfl, rfl⟩

/-- C8: `nextQuestion` increments `currentIndex` by exactly 1, clears
`answered`, and returns true exactly when a question remains; hence after a
successful start followed by `totalQuestions` calls, `currentQuestion` is
`none`. -/
theorem claim8_next_question :
    (∀ g : QuizGame,
      (g.nextQuestion).2.currentIndex = g.currentIndex + 1 ∧
      (g.nextQuestion).2.answered = false ∧
      ((g.nextQuestion).1 = true ↔
        (g.nextQuestion).2.currentIndex < g.questions.length)) ∧
    (∀ (g g' : QuizGame) (rnd : Nat → Nat → Nat) (cont : Option String),
      g.start rnd cont = Except.ok g' →
      (advanceN g' g'.totalQuestions).currentQuestion = none) := by
  constructor
  · intro g
    refine ⟨rfl, rfl, ?_⟩
    show (!(QuizGame.isGameOver _)) = true ↔ g.currentIndex + 1 <
      g.questions.length
    simp [QuizGame.isGameOver]
  · intro g g' rnd cont h
    obtain ⟨hq, hidx, _, _, _⟩ := start_ok_fields g g' rnd cont h
    have hadv := advanceN_spec g'.totalQuestions g'
    have hcond : (advanceN g' g'.totalQuestions).currentIndex ≥
        (advanceN g' g'.totalQuestions).questions.length := by
      rw [hadv.1, hadv.2, hidx]
      show g'.questions.length ≤ 0 + g'.totalQuestions
      simp [QuizGame.totalQuestions]
    simp [QuizGame.currentQuestion, hcond]

/-- C8 (witness). -/
theorem claim8_witness :
    ((QuizGame.init catalog5).start zeroRnd (some "all") =
        Except.ok afterStart) ∧
      (advanceN afterStart afterStart.totalQuestions).currentQuestion =
        none :=
  ⟨by rfl,
   claim8_next_question.2 (QuizGame.init catalog5) afterStart zeroRnd
     (some "all") (by rfl)⟩

/-- Helper: membership in the first-occurrence dedup, by strong induction
on the length. -/
theorem dedupFirstMemAux : ∀ (n : Nat) (l : List String), l.length ≤ n →
    ∀ s, (s ∈ dedupFirst l ↔ s ∈ l)
  | _, [], _, s => by simp [dedupFirst]
  | n + 1, x :: xs, hn, s => by
      have hle : (xs.filter (fun y => y != x)).length ≤ n :=
        le_trans (List.length_filter_le _ _) (by simpa using hn)
      have ih := dedupFirstMemAux n (xs.filter (fun y => y != x)) hle s
      rw [dedupFirst]
      simp only [List.mem_cons, ih, List.mem_filter, bne_iff_ne]
      by_cases hx : s = x
      · simp [hx]
      · simp [hx]

theorem dedupFirst_mem (l : List String) (s : String) :
    s ∈ dedupFirst l ↔ s ∈ l :=
  dedupFirstMemAux l.length l (Nat.le_refl _) s

/-- Helper: the first-occurrence dedup has no duplicates. -/
theorem dedupFirstNodupAux : ∀ (n : Nat) (l : List String),
    l.length ≤ n → (dedupFirst l).Nodup
  | _, [], _ => by simp [dedupFirst]
  | n + 1, x :: xs, hn => by
      have hle : (xs.filter (fun y => y != x)).length ≤ n :=
        le_trans (List.length_filter_le _ _) (by simpa using hn)
      rw [dedupFirst]
      refine List.nodup_cons.mpr ⟨?_, dedupFirstNodupAux n _ hle⟩
      intro hx
      have hmem := (dedupFirst_mem _ _).mp hx
      have := (List.mem_filter.mp hmem).2
      simp at this

theorem dedupFirst_nodup (l : List String) : (dedupFirst l).Nodup :=
  dedupFirstNodupAux l.length l (Nat.le_refl _)

/-- C9: `continents` returns exactly the distinct continent labels of the
catalog with `"Antarctica"` removed, sorted ascending, without
duplicates. -/
theorem claim9_continents (g : QuizGame) :
    List.Sorted (fun a b => a ≤ b) g.continents ∧
    g.continents.Nodup ∧
    (∀ s, s ∈ g.continents ↔
      (s ∈ g.allCountries.map (fun c => c.continent) ∧
        s ≠ "Antarctica")) := by
  unfold QuizGame.continents
  refine ⟨List.sorted_insertionSort _ _, ?_, ?_⟩
  · exact ((List.perm_insertionSort _ _).nodup_iff).mpr
      ((dedupFirst_nodup _).filter _)
  · intro s
    rw [(List.perm_insertionSort _ _).mem_iff, List.mem_filter,
      dedupFirst_mem]
    simp [bne_iff_ne]

/-- C10: neither `generate` nor any sequence of `start` calls writes to a
pre-existing heap array: the catalog and the caller's pool are
element-for-element unchanged (the in-place shuffles hit only arrays the
call itself allocated). -/
theorem claim10_no_mutation :
    (∀ (rnd : Nat → Nat → Nat) (σ : Store) (poolRef count r : Nat),
      r < σ.next →
      (generateHeap rnd σ poolRef count).2.data r = σ.data r) ∧
    (∀ (allRef : Nat)
        (ops : List ((Nat → Nat → Nat) × Option String))
        (σ : Store) (r : Nat),
      r < σ.next → (runStarts allRef ops σ).data r = σ.data r) :=
  ⟨fun rnd σ poolRef count r h =>
    (generateHeap_frame rnd σ poolRef count r h).1,
   fun allRef ops σ r h => (runStarts_frame allRef ops σ r h).1⟩

/-- C10 (witness). -/
theorem claim10_witness :
    (0 < store0.next) ∧
      (generateHeap zeroRnd store0 0 10).2.data 0 = store0.data 0 ∧
      (runStarts 0 [(zeroRnd, some "all"), (zeroRnd, some "Europe")]
        store0).data 0 = store0.data 0 :=
  ⟨by decide,
   claim10_no_mutation.1 zeroRnd store0 0 10 0 (by decide),
   claim10_no_mutation.2 0 [(zeroRnd, some "all"), (zeroRnd, some "Europe")]
     store0 0 (by decide)⟩
